import Mathlib

/-! Verification of the mcp-email synchronization and cache engine.

This file shallowly embeds the parts of the Go source that the checked
claims are about:

* the SQLite-backed cache store (`internal/cache`, schema in the
  `Schema` constant): the `emails` table with its
  `UNIQUE(account_id, folder_id, uid)` natural key and
  `ON CONFLICT ... DO UPDATE` upserts, the `accounts` table, and the
  `Store.Search` / `Store.GetAccountID` / `Store.GetEmail` queries;
* the IMAP message normalizer `IMAPClient.parseMessage`;
* the sync orchestration `Manager.SyncAccount` / `Manager.syncFolder`;
* the MCP tools `SearchEmailsTool.Execute` and `GetEmailTool.Execute`.

Strings are modelled as lists of characters (Go `len`/slicing is
byte-based; the model treats one list element per unit of length, which
matches the source for the ASCII data the spec discusses).  Timestamps
are modelled as naturals.  External collaborators (the IMAP wire
protocol, `enmime` MIME decoding, the FTS5 MATCH predicate, RFC3339
date parsing) are modelled as oracle parameters, since their internals
are outside the repository.
-/

namespace MCPEmail

abbrev Str := List Char

/-- `types.Email` as handed to `Store.UpsertEmail`: the natural key
`(account_id, folder_id, uid)` plus the mutable columns written by the
upsert (`pkg/types/email.go`). -/
structure EmailIn where
  accountId : Nat
  folderId : Nat
  uid : Nat
  messageId : Str
  subject : Str
  senderName : Str
  senderEmail : Str
  recipients : List Str
  date : Nat
  bodyText : Str
  bodyHtml : Str
  headers : List (Str × Str)
  flags : List Str
deriving DecidableEq

/-- A stored row of the `emails` table: surrogate `id` (AUTOINCREMENT
primary key) plus the columns of the schema. -/
structure EmailRow where
  id : Nat
  accountId : Nat
  folderId : Nat
  uid : Nat
  messageId : Str
  subject : Str
  senderName : Str
  senderEmail : Str
  recipients : List Str
  date : Nat
  bodyText : Str
  bodyHtml : Str
  headers : List (Str × Str)
  flags : List Str
deriving DecidableEq

/-- The `emails` table: its rows plus the AUTOINCREMENT counter. -/
structure EmailTable where
  rows : List EmailRow
  nextId : Nat
deriving DecidableEq

/-- Natural key of a stored row, the `UNIQUE(account_id, folder_id, uid)`
constraint of the schema. -/
def keyOfRow (r : EmailRow) : Nat × Nat × Nat := (r.accountId, r.folderId, r.uid)

/-- Natural key of an incoming record. -/
def keyOfIn (e : EmailIn) : Nat × Nat × Nat := (e.accountId, e.folderId, e.uid)

/-- The `DO UPDATE SET` clause of `Store.UpsertEmail`: overwrite every
mutable column, keep `id` and the key columns. -/
def applyUpdate (e : EmailIn) (r : EmailRow) : EmailRow :=
  { r with
    messageId := e.messageId
    subject := e.subject
    senderName := e.senderName
    senderEmail := e.senderEmail
    recipients := e.recipients
    date := e.date
    bodyText := e.bodyText
    bodyHtml := e.bodyHtml
    headers := e.headers
    flags := e.flags }

/-- A freshly inserted row for `Store.UpsertEmail`, with surrogate id
taken from the AUTOINCREMENT counter. -/
def newRow (id : Nat) (e : EmailIn) : EmailRow :=
  { id := id
    accountId := e.accountId
    folderId := e.folderId
    uid := e.uid
    messageId := e.messageId
    subject := e.subject
    senderName := e.senderName
    senderEmail := e.senderEmail
    recipients := e.recipients
    date := e.date
    bodyText := e.bodyText
    bodyHtml := e.bodyHtml
    headers := e.headers
    flags := e.flags }

/-- Per-row effect of the conflict branch of the upsert. -/
def updFn (e : EmailIn) (r : EmailRow) : EmailRow :=
  if keyOfRow r = keyOfIn e then applyUpdate e r else r

/-- `Store.UpsertEmail`: `INSERT INTO emails ... ON CONFLICT(account_id,
folder_id, uid) DO UPDATE SET ...`.  If a row with the natural key
exists it is updated in place (surrogate id preserved); otherwise a new
row is appended with a fresh surrogate id. -/
def upsertEmail (t : EmailTable) (e : EmailIn) : EmailTable :=
  if t.rows.any (fun r => decide (keyOfRow r = keyOfIn e)) then
    { t with rows := t.rows.map (updFn e) }
  else
    { rows := t.rows ++ [newRow t.nextId e], nextId := t.nextId + 1 }

/-- The rows of the table carrying a given natural key. -/
def rowsWithKey (t : EmailTable) (k : Nat × Nat × Nat) : List EmailRow :=
  t.rows.filter (fun r => decide (keyOfRow r = k))

/-- The schema's `UNIQUE(account_id, folder_id, uid)` invariant. -/
def KeyUnique (l : List EmailRow) : Prop :=
  l.Pairwise (fun a b => keyOfRow a ≠ keyOfRow b)

theorem keyOfRow_applyUpdate (e : EmailIn) (r : EmailRow) :
    keyOfRow (applyUpdate e r) = keyOfRow r := rfl

theorem keyOfRow_updFn (e : EmailIn) (r : EmailRow) :
    keyOfRow (updFn e r) = keyOfRow r := by
  unfold updFn; split <;> rfl

theorem keyOfRow_newRow (id : Nat) (e : EmailIn) :
    keyOfRow (newRow id e) = keyOfIn e := rfl

theorem id_applyUpdate (e : EmailIn) (r : EmailRow) :
    (applyUpdate e r).id = r.id := rfl

theorem subject_applyUpdate (e : EmailIn) (r : EmailRow) :
    (applyUpdate e r).subject = e.subject := rfl

theorem filter_key_map_upd (e : EmailIn) (k : Nat × Nat × Nat) (l : List EmailRow) :
    (l.map (updFn e)).filter (fun r => decide (keyOfRow r = k))
      = (l.filter (fun r => decide (keyOfRow r = k))).map (updFn e) := by
  induction l with
  | nil => rfl
  | cons a l ih =>
    simp only [List.map_cons, List.filter_cons, keyOfRow_updFn]
    by_cases h : keyOfRow a = k
    · simp [h, ih]
    · simp [h, ih]

theorem length_rowsWithKey_le_one (k : Nat × Nat × Nat) (l : List EmailRow)
    (hu : KeyUnique l) :
    (l.filter (fun r => decide (keyOfRow r = k))).length ≤ 1 := by
  induction l with
  | nil => simp
  | cons a l ih =>
    have hu' : KeyUnique l := (List.pairwise_cons.mp hu).2
    have hne : ∀ b ∈ l, keyOfRow a ≠ keyOfRow b := (List.pairwise_cons.mp hu).1
    by_cases h : keyOfRow a = k
    · have hnil : l.filter (fun r => decide (keyOfRow r = k)) = [] := by
        apply List.filter_eq_nil_iff.mpr
        intro b hb
        simp only [decide_eq_true_eq]
        intro hbk
        exact hne b hb (h.trans hbk.symm)
      simp [List.filter_cons, h, hnil]
    · simpa [List.filter_cons, h] using ih hu'

theorem rowsWithKey_upsert_self (t : EmailTable) (e : EmailIn)
    (hu : KeyUnique t.rows) :
    (rowsWithKey (upsertEmail t e) (keyOfIn e)).length = 1 := by
  unfold upsertEmail rowsWithKey
  by_cases hc : t.rows.any (fun r => decide (keyOfRow r = keyOfIn e)) = true
  · simp only [hc, if_true]
    rw [filter_key_map_upd]
    rw [List.length_map]
    obtain ⟨r, hr, hk⟩ := List.any_eq_true.mp hc
    have hmem : r ∈ t.rows.filter (fun r => decide (keyOfRow r = keyOfIn e)) :=
      List.mem_filter.mpr ⟨hr, hk⟩
    have h1 : 1 ≤ (t.rows.filter (fun r => decide (keyOfRow r = keyOfIn e))).length := by
      cases hf : t.rows.filter (fun r => decide (keyOfRow r = keyOfIn e)) with
      | nil => rw [hf] at hmem; cases hmem
      | cons x xs => simp [hf, Nat.succ_le_succ]
    exact Nat.le_antisymm (length_rowsWithKey_le_one _ _ hu) h1
  · simp only [hc, if_false]
    have hnil : t.rows.filter (fun r => decide (keyOfRow r = keyOfIn e)) = [] := by
      apply List.filter_eq_nil_iff.mpr
      intro b hb hbk
      exact hc (List.any_eq_true.mpr ⟨b, hb, hbk⟩)
    simp [List.filter_append, hnil, keyOfRow_newRow]

theorem keyUnique_upsert (t : EmailTable) (e : EmailIn)
    (hu : KeyUnique t.rows) : KeyUnique (upsertEmail t e).rows := by
  unfold upsertEmail
  by_cases hc : t.rows.any (fun r => decide (keyOfRow r = keyOfIn e)) = true
  · simp only [hc, if_true]
    exact hu.map (updFn e) (fun a b h => by
      rw [keyOfRow_updFn, keyOfRow_updFn]; exact h)
  · simp only [hc, if_false]
    apply List.pairwise_append.mpr
    refine ⟨hu, List.pairwise_singleton _ _, ?_⟩
    intro a ha b hb
    have hb' : b = newRow t.nextId e := by simpa using hb
    subst hb'
    rw [keyOfRow_newRow]
    intro hak
    exact hc (List.any_eq_true.mpr ⟨a, ha, by simpa using hak⟩)

theorem mem_rowsWithKey_key {t : EmailTable} {k : Nat × Nat × Nat} {r : EmailRow}
    (h : r ∈ rowsWithKey t k) : keyOfRow r = k := by
  have := (List.mem_filter.mp h).2
  simpa using this

/-- C1: upserting twice with the same `(account_id, folder_id, uid)` key
and different subjects leaves exactly one row with that key, that row
carries the subject of the second upsert, and the surrogate ids of the
key's rows are unchanged by the second upsert. -/
theorem C1_upsert_twice_one_row_latest_subject_stable_id
    (t : EmailTable) (e1 e2 : EmailIn)
    (hu : KeyUnique t.rows) (hk : keyOfIn e1 = keyOfIn e2)
    (hs : e1.subject ≠ e2.subject) :
    (rowsWithKey (upsertEmail (upsertEmail t e1) e2) (keyOfIn e2)).length = 1 ∧
    (∀ r ∈ rowsWithKey (upsertEmail (upsertEmail t e1) e2) (keyOfIn e2),
      r.subject = e2.subject) ∧
    (rowsWithKey (upsertEmail (upsertEmail t e1) e2) (keyOfIn e2)).map (fun r => r.id)
      = (rowsWithKey (upsertEmail t e1) (keyOfIn e2)).map (fun r => r.id) := by
  set t1 := upsertEmail t e1 with ht1
  have hu1 : KeyUnique t1.rows := keyUnique_upsert t e1 hu
  have hlen1 : (rowsWithKey t1 (keyOfIn e2)).length = 1 := by
    rw [← hk]; exact rowsWithKey_upsert_self t e1 hu
  -- the key is present in t1, so the second upsert takes the update branch
  have hany : t1.rows.any (fun r => decide (keyOfRow r = keyOfIn e2)) = true := by
    cases hf : rowsWithKey t1 (keyOfIn e2) with
    | nil => rw [hf] at hlen1; cases hlen1
    | cons x xs =>
      have hx : x ∈ rowsWithKey t1 (keyOfIn e2) := by rw [hf]; exact List.mem_cons_self x xs
      have hx1 : x ∈ t1.rows := (List.mem_filter.mp hx).1
      have hx2 := (List.mem_filter.mp hx).2
      exact List.any_eq_true.mpr ⟨x, hx1, hx2⟩
  have ht2 : upsertEmail t1 e2 = { t1 with rows := t1.rows.map (updFn e2) } := by
    unfold upsertEmail; rw [hany]; simp
  have hrows : rowsWithKey (upsertEmail t1 e2) (keyOfIn e2)
      = (rowsWithKey t1 (keyOfIn e2)).map (applyUpdate e2) := by
    rw [ht2]
    unfold rowsWithKey
    simp only
    rw [filter_key_map_upd]
    apply List.map_congr_left
    intro r hr
    have : keyOfRow r = keyOfIn e2 := by
      have := (List.mem_filter.mp hr).2; simpa using this
    unfold updFn
    rw [this]; simp
  refine ⟨?_, ?_, ?_⟩
  · rw [hrows, List.length_map]; exact hlen1
  · intro r hr
    rw [hrows] at hr
    obtain ⟨s, _, rfl⟩ := List.mem_map.mp hr
    exact subject_applyUpdate e2 s
  · rw [hrows, List.map_map]
    apply List.map_congr_left
    intro r _
    rfl

/-- Concrete inputs for the C1 witness: two records sharing the key
`(1, 2, 7)` with different subjects, upserted into the empty table. -/
def wEmailA : EmailIn :=
  { accountId := 1, folderId := 2, uid := 7
    messageId := [], subject := [ 'a' ], senderName := [], senderEmail := []
    recipients := [], date := 5, bodyText := [], bodyHtml := []
    headers := [], flags := [] }

def wEmailB : EmailIn :=
  { wEmailA with subject := [ 'b' ] }

def wEmptyTable : EmailTable := { rows := [], nextId := 1 }

/-- C1 witness: the theorem applied to concrete records over the empty
table. -/
theorem C1_upsert_twice_one_row_latest_subject_stable_id_witness :
    (rowsWithKey (upsertEmail (upsertEmail wEmptyTable wEmailA) wEmailB) (keyOfIn wEmailB)).length = 1 ∧
    (∀ r ∈ rowsWithKey (upsertEmail (upsertEmail wEmptyTable wEmailA) wEmailB) (keyOfIn wEmailB),
      r.subject = wEmailB.subject) ∧
    (rowsWithKey (upsertEmail (upsertEmail wEmptyTable wEmailA) wEmailB) (keyOfIn wEmailB)).map (fun r => r.id)
      = (rowsWithKey (upsertEmail wEmptyTable wEmailA) (keyOfIn wEmailB)).map (fun r => r.id) :=
  C1_upsert_twice_one_row_latest_subject_stable_id wEmptyTable wEmailA wEmailB
    List.Pairwise.nil rfl (by decide)

/-! Model of: Accounts table and `Store.UpsertAccount` (C10) -/

/-- `config.AccountConfig` (`internal/config/config.go`): the full
per-account configuration, including the IMAP and SMTP passwords. -/
structure AccountConfig where
  name : Str
  imapHost : Str
  imapPort : Int
  imapUsername : Str
  imapPassword : Str
  smtpHost : Str
  smtpPort : Int
  smtpUsername : Str
  smtpPassword : Str
deriving DecidableEq

/-- A row of the `accounts` table.  The schema has columns for the name,
hosts, ports and usernames only — no password columns exist. -/
structure AccountRow where
  id : Nat
  name : Str
  imapHost : Str
  imapPort : Int
  imapUsername : Str
  smtpHost : Str
  smtpPort : Int
  smtpUsername : Str
deriving DecidableEq

/-- The `accounts` table with its AUTOINCREMENT counter. -/
structure AccountsTable where
  rows : List AccountRow
  nextId : Nat
deriving DecidableEq

/-- `Store.UpsertAccount`: `INSERT INTO accounts (name, imap_host,
imap_port, imap_username, smtp_host, smtp_port, smtp_username, ...)
ON CONFLICT(name) DO UPDATE SET ...`.  Only the listed columns are
bound as arguments; the password fields of the configuration are never
passed to the database.  (The `created_at`/`updated_at` timestamp
columns are not modelled.) -/
def upsertAccount (t : AccountsTable) (c : AccountConfig) : AccountsTable :=
  if t.rows.any (fun r => decide (r.name = c.name)) then
    { t with rows := t.rows.map (fun r =>
        if r.name = c.name then
          { r with
            imapHost := c.imapHost
            imapPort := c.imapPort
            imapUsername := c.imapUsername
            smtpHost := c.smtpHost
            smtpPort := c.smtpPort
            smtpUsername := c.smtpUsername }
        else r) }
  else
    { rows := t.rows ++ [{ id := t.nextId
                           name := c.name
                           imapHost := c.imapHost
                           imapPort := c.imapPort
                           imapUsername := c.imapUsername
                           smtpHost := c.smtpHost
                           smtpPort := c.smtpPort
                           smtpUsername := c.smtpUsername }]
      nextId := t.nextId + 1 }

/-- Erase the two password fields of a configuration. -/
def scrubPasswords (c : AccountConfig) : AccountConfig :=
  { c with imapPassword := [], smtpPassword := [] }

/-- C10: the persisted account row holds only name, hosts, ports and
usernames; two upserts of configurations that agree on everything but
the passwords produce identical cache state, i.e. passwords never reach
the durable store. -/
theorem C10_upsert_account_ignores_passwords
    (t : AccountsTable) (c1 c2 : AccountConfig)
    (h : scrubPasswords c1 = scrubPasswords c2) :
    upsertAccount t c1 = upsertAccount t c2 := by
  cases c1
  cases c2
  simp only [scrubPasswords, AccountConfig.mk.injEq] at h
  obtain ⟨h1, h2, h3, h4, -, h5, h6, h7, -⟩ := h
  subst h1; subst h2; subst h3; subst h4; subst h5; subst h6; subst h7
  rfl

/-- Concrete configurations for the C10 witness: identical except for
both passwords. -/
def wCfgP1 : AccountConfig :=
  { name := [ 'w' ], imapHost := [ 'h' ], imapPort := 993, imapUsername := [ 'u' ]
    imapPassword := [ 'p' ], smtpHost := [ 's' ], smtpPort := 587
    smtpUsername := [ 'u' ], smtpPassword := [ 'q' ] }

def wCfgP2 : AccountConfig :=
  { wCfgP1 with imapPassword := [ 'x' ], smtpPassword := [ 'y' ] }

def wAccountsEmpty : AccountsTable := { rows := [], nextId := 1 }

/-- C10 witness: the theorem applied to two concrete configurations that
differ only in their passwords. -/
theorem C10_upsert_account_ignores_passwords_witness :
    upsertAccount wAccountsEmpty wCfgP1 = upsertAccount wAccountsEmpty wCfgP2 :=
  C10_upsert_account_ignores_passwords wAccountsEmpty wCfgP1 wCfgP2 (by decide)

/-! Model of: Cache database and `Store.Search` (C3, C4, C8, C9) -/

/-- A row of the `folders` table (only the columns the search joins
read). -/
structure FolderRow where
  id : Nat
  accountId : Nat
  name : Str
  path : Str
  messageCount : Int
deriving DecidableEq

/-- The three-table cache database of `internal/cache`. -/
structure Db where
  accounts : AccountsTable
  folders : List FolderRow
  emails : EmailTable
deriving DecidableEq

/-- Go `strings.HasPrefix`-style check, char by char. -/
def startsWith : Str → Str → Bool
  | _, [] => true
  | [], _ :: _ => false
  | a :: s, b :: p => a == b && startsWith s p

/-- Substring containment, the semantics of a SQL `LIKE '%needle%'`
pattern over already case-folded operands. -/
def containsStr : Str → Str → Bool
  | [], needle => startsWith [] needle
  | hay@(_ :: t), needle => startsWith hay needle || containsStr t needle

/-- ASCII lower-casing, matching SQLite's ASCII-only case folding for
`LIKE`. -/
def asciiLower (c : Char) : Char :=
  if c.toNat ≥ 65 ∧ c.toNat ≤ 90 then Char.ofNat (c.toNat + 32) else c

/-- SQLite `column LIKE '%term%'`: ASCII-case-insensitive substring
match. -/
def likeContains (hay needle : Str) : Bool :=
  containsStr (hay.map asciiLower) (needle.map asciiLower)

/-- JSON serialization of the recipients list as written by
`json.Marshal([]string)` into the `recipients` TEXT column (string
escaping is not modelled; the spec's examples are plain addresses). -/
def serializeRecipients (l : List Str) : Str :=
  [Char.ofNat 91]
    ++ List.intercalate [Char.ofNat 44] (l.map (fun s => [Char.ofNat 34] ++ s ++ [Char.ofNat 34]))
    ++ [Char.ofNat 93]

/-- The FTS5 metacharacter defusing in `Store.Search`: double-quote and
single-quote characters are doubled (`strings.ReplaceAll` twice). -/
def escapeFts (q : Str) : Str :=
  q.foldr (fun c acc =>
    if c.toNat = 34 ∨ c.toNat = 39 then c :: c :: acc else c :: acc) []

/-- `cache.SearchOptions`. -/
structure SearchOpts where
  accountId : Option Nat
  folderId : Option Nat
  sender : Option Str
  recipient : Option Str
  subject : Option Str
  body : Option Str
  dateFrom : Option Nat
  dateTo : Option Nat
  limit : Int
deriving DecidableEq

/-- The empty option set (all filters absent, limit zero). -/
def noOpts : SearchOpts :=
  { accountId := none, folderId := none, sender := none, recipient := none
    subject := none, body := none, dateFrom := none, dateTo := none, limit := 0 }

/-- The limit clamping inside `Store.Search`:
`if limit <= 0 { limit = 100 }; if limit > 1000 { limit = 1000 }`. -/
def storeClampLimit (l : Int) : Int :=
  let l1 := if l ≤ 0 then 100 else l
  if l1 > 1000 then 1000 else l1

/-- The `JOIN accounts a ON e.account_id = a.id JOIN folders f ON
e.folder_id = f.id` of the search query: an email row only survives the
inner joins when both parents exist. -/
def joinOk (db : Db) (r : EmailRow) : Bool :=
  db.accounts.rows.any (fun a => decide (a.id = r.accountId)) &&
  db.folders.any (fun f => decide (f.id = r.folderId))

/-- The conjunctive WHERE clause built by `Store.Search`; `fts` is the
oracle for the external FTS5 `MATCH` predicate (given the escaped query
and a row id). -/
def matchesRow (fts : Str → Nat → Bool) (db : Db) (o : SearchOpts) (r : EmailRow) : Bool :=
  joinOk db r &&
  (match o.accountId with | none => true | some a => decide (r.accountId = a)) &&
  (match o.folderId with | none => true | some f => decide (r.folderId = f)) &&
  (match o.sender with
    | none => true
    | some s => likeContains r.senderEmail s || likeContains r.senderName s) &&
  (match o.recipient with
    | none => true
    | some s => likeContains (serializeRecipients r.recipients) s) &&
  (match o.subject with | none => true | some s => likeContains r.subject s) &&
  (match o.dateFrom with | none => true | some d => decide (d ≤ r.date)) &&
  (match o.dateTo with | none => true | some d => decide (r.date ≤ d)) &&
  (match o.body with | none => true | some q => fts (escapeFts q) r.id)

/-- Descending-timestamp order used by `ORDER BY e.date DESC`. -/
def rowDateGe (a b : EmailRow) : Prop := b.date ≤ a.date

instance : DecidableRel rowDateGe :=
  fun a b => inferInstanceAs (Decidable (b.date ≤ a.date))

instance : IsTotal EmailRow rowDateGe :=
  ⟨fun a b => (Nat.le_total b.date a.date).elim Or.inl Or.inr⟩

instance : IsTrans EmailRow rowDateGe :=
  ⟨fun _ _ _ h1 h2 => Nat.le_trans h2 h1⟩

/-- `types.EmailSummary`. -/
structure EmailSummary where
  id : Nat
  accountName : Str
  folderPath : Str
  subject : Str
  senderName : Str
  senderEmail : Str
  date : Nat
  snippet : Str
deriving DecidableEq

/-- Snippet construction in `Store.Search`: first 200 units of the
plain-text body, a `...` marker appended when the body is longer, empty
when no body text is stored. -/
def mkSnippet (b : Str) : Str :=
  if b.length > 0 then
    (if b.length > 200 then b.take 200 ++ [ '.', '.', '.' ] else b)
  else []

/-- One summary row of the search result set, with the account name and
folder path denormalized through the joins. -/
def mkSummary (db : Db) (r : EmailRow) : EmailSummary :=
  { id := r.id
    accountName :=
      match db.accounts.rows.find? (fun a => decide (a.id = r.accountId)) with
      | some a => a.name
      | none => []
    folderPath :=
      match db.folders.find? (fun f => decide (f.id = r.folderId)) with
      | some f => f.path
      | none => []
    subject := r.subject
    senderName := r.senderName
    senderEmail := r.senderEmail
    date := r.date
    snippet := mkSnippet r.bodyText }

/-- `Store.Search`: filter by the conjunctive WHERE clause, order by
date descending, apply the clamped LIMIT, and build summaries. -/
def search (fts : Str → Nat → Bool) (db : Db) (o : SearchOpts) : List EmailSummary :=
  let filtered := db.emails.rows.filter (matchesRow fts db o)
  let sorted := filtered.insertionSort rowDateGe
  ((sorted.take (storeClampLimit o.limit).toNat).map (mkSummary db))

/-- `Store.GetAccountID`: a typed not-found failure when no account row
carries the name. -/
def getAccountID (db : Db) (name : Str) : Except Unit Nat :=
  match db.accounts.rows.find? (fun a => decide (a.name = name)) with
  | some a => .ok a.id
  | none => .error ()

/-! Model of: `SearchEmailsTool.Execute` -/

/-- The configuration fields the search tool reads. -/
structure ToolConfig where
  searchResultLimit : Int
deriving DecidableEq

instance {ε α : Type} [DecidableEq ε] [DecidableEq α] : DecidableEq (Except ε α) := fun a b =>
  match a, b with
  | .ok x, .ok y =>
    if h : x = y then isTrue (by rw [h]) else isFalse (by intro hh; cases hh; exact h rfl)
  | .error x, .error y =>
    if h : x = y then isTrue (by rw [h]) else isFalse (by intro hh; cases hh; exact h rfl)
  | .ok _, .error _ => isFalse (by intro h; cases h)
  | .error _, .ok _ => isFalse (by intro h; cases h)

/-- The tool's request parameters.  `dateFrom`/`dateTo` carry the
outcome of the external `time.Parse(time.RFC3339, ...)` call (`.error`
models a parse failure); `limitReq` is the numeric limit parameter when
one was supplied (absent or unparseable values leave the limit at the
zero value, exactly as in the Go code). -/
structure SearchParams where
  accountName : Option Str
  sender : Option Str
  recipient : Option Str
  subject : Option Str
  body : Option Str
  dateFrom : Option (Except Unit Nat)
  dateTo : Option (Except Unit Nat)
  limitReq : Option Int
deriving DecidableEq

/-- The tool's request parameters with everything absent. -/
def noParams : SearchParams :=
  { accountName := none, sender := none, recipient := none, subject := none
    body := none, dateFrom := none, dateTo := none, limitReq := none }

inductive SearchToolErr where
  | invalidDateFrom
  | invalidDateTo
deriving DecidableEq

/-- Keep a string parameter only when supplied and non-empty
(`ok && value != ""` in the Go code). -/
def nonEmptyParam (p : Option Str) : Option Str :=
  match p with
  | some s => if s = [] then none else some s
  | none => none

/-- The limit handling of `SearchEmailsTool.Execute`: `opts.Limit` is
the supplied value (zero when absent); if it is still zero it is
replaced by the configured `SearchResultLimit`. -/
def toolLimit (cfgDefault : Int) (req : Option Int) : Int :=
  let l := req.getD 0
  if l = 0 then cfgDefault else l

/-- The limit that finally reaches the SQL query: tool-level defaulting
followed by the store-level clamp. -/
def effectiveLimit (cfgDefault : Int) (req : Option Int) : Int :=
  storeClampLimit (toolLimit cfgDefault req)

/-- `SearchEmailsTool.Execute`: build `cache.SearchOptions` from the
request and call `Store.Search`.  A failed account-name lookup is
silently discarded (`if err == nil` in the Go code); a failed date parse
is a user-visible error. -/
def searchToolExecute (fts : Str → Nat → Bool) (db : Db) (cfg : ToolConfig)
    (p : SearchParams) : Except SearchToolErr (List EmailSummary) := do
  let accountId :=
    match p.accountName with
    | some n =>
      if n = [] then none
      else
        match getAccountID db n with
        | .ok i => some i
        | .error _ => none
    | none => none
  let dFrom ←
    match p.dateFrom with
    | none => pure none
    | some (.ok d) => pure (some d)
    | some (.error _) => throw .invalidDateFrom
  let dTo ←
    match p.dateTo with
    | none => pure none
    | some (.ok d) => pure (some d)
    | some (.error _) => throw .invalidDateTo
  let opts : SearchOpts :=
    { accountId := accountId
      folderId := none
      sender := nonEmptyParam p.sender
      recipient := nonEmptyParam p.recipient
      subject := nonEmptyParam p.subject
      body := nonEmptyParam p.body
      dateFrom := dFrom
      dateTo := dTo
      limit := toolLimit cfg.searchResultLimit p.limitReq }
  pure (search fts db opts)

/-! Model of: C4: result ordering -/

/-- C4: for every filter combination and cache state, search results
are ordered by descending timestamp — each result's date is at least
the date of the result that follows it. -/
theorem C4_search_results_date_descending
    (fts : Str → Nat → Bool) (db : Db) (o : SearchOpts) (i : Nat)
    (h : i + 1 < (search fts db o).length) :
    ((search fts db o).get ⟨i + 1, h⟩).date
      ≤ ((search fts db o).get ⟨i, Nat.lt_of_succ_lt h⟩).date := by
  have hsorted : (search fts db o).Pairwise (fun s t => t.date ≤ s.date) := by
    unfold search
    rw [List.pairwise_map]
    have h1 : List.Sorted rowDateGe
        ((db.emails.rows.filter (matchesRow fts db o)).insertionSort rowDateGe) :=
      List.sorted_insertionSort rowDateGe _
    exact List.Pairwise.sublist (List.take_sublist _ _) h1
  exact List.Sorted.rel_get_of_lt hsorted (Nat.lt_succ_self i)

/-- Oracle standing in for the external FTS5 MATCH predicate in the
concrete witnesses (never consulted: the witness queries carry no body
filter). -/
def wFts : Str → Nat → Bool := fun _ _ => false

/-- A cached email row of the witness database. -/
def wRow (id uid date : Nat) (body : Str) : EmailRow :=
  { id := id, accountId := 1, folderId := 1, uid := uid
    messageId := [], subject := [ 'm' ], senderName := [], senderEmail := []
    recipients := [], date := date, bodyText := body, bodyHtml := []
    headers := [], flags := [] }

/-- Witness database: one account `work`, one folder `INBOX`, three
cached emails with dates 10, 20 and 30. -/
def wSearchDb : Db :=
  { accounts :=
      { rows := [{ id := 1, name := "work".toList, imapHost := [], imapPort := 0
                   imapUsername := [], smtpHost := [], smtpPort := 0
                   smtpUsername := [] }]
        nextId := 2 }
    folders := [{ id := 1, accountId := 1, name := "INBOX".toList
                  path := "INBOX".toList, messageCount := 3 }]
    emails := { rows := [wRow 1 1 10 [], wRow 2 2 20 ("hi".toList), wRow 3 3 30 []]
                nextId := 4 } }

/-- C4 witness: on the concrete witness database the first two results
of an unfiltered search satisfy the descending-date relation. -/
theorem C4_search_results_date_descending_witness :
    0 + 1 < (search wFts wSearchDb noOpts).length ∧
    ((search wFts wSearchDb noOpts).get ⟨0 + 1, by decide⟩).date
      ≤ ((search wFts wSearchDb noOpts).get ⟨0, by decide⟩).date :=
  ⟨by decide, C4_search_results_date_descending wFts wSearchDb noOpts 0 (by decide)⟩

/-! Model of: C8: snippets -/

/-- C8: every search result's snippet is the first 200 characters of
the stored plain-text body of its underlying row, with a `...` marker
appended when the body is longer than 200 characters, and is empty when
no body text is stored. -/
theorem C8_search_snippet_first_200
    (fts : Str → Nat → Bool) (db : Db) (o : SearchOpts) (s : EmailSummary)
    (hs : s ∈ search fts db o) :
    ∃ r, r ∈ db.emails.rows ∧ s = mkSummary db r ∧
      (r.bodyText = [] → s.snippet = []) ∧
      (r.bodyText.length ≤ 200 → s.snippet = r.bodyText) ∧
      (r.bodyText.length > 200 → s.snippet = r.bodyText.take 200 ++ [ '.', '.', '.' ]) := by
  unfold search at hs
  obtain ⟨r, hrmem, rfl⟩ := List.mem_map.mp hs
  have hr1 : r ∈ (db.emails.rows.filter (matchesRow fts db o)).insertionSort rowDateGe :=
    List.mem_of_mem_take hrmem
  have hr2 : r ∈ db.emails.rows.filter (matchesRow fts db o) :=
    (List.mem_insertionSort rowDateGe).mp hr1
  refine ⟨r, List.mem_of_mem_filter hr2, rfl, ?_, ?_, ?_⟩
  · intro hb
    simp [mkSummary, mkSnippet, hb]
  · intro hb
    by_cases hz : r.bodyText = []
    · simp [mkSummary, mkSnippet, hz]
    · have hpos : 0 < r.bodyText.length := List.length_pos.mpr hz
      simp only [mkSummary, mkSnippet]
      rw [if_pos hpos, if_neg (by omega)]
  · intro hb
    have hpos : 0 < r.bodyText.length := by omega
    simp only [mkSummary, mkSnippet]
    rw [if_pos hpos, if_pos hb]

/-- C8 witness: the summary of the witness row with body `hi` occurs in
the unfiltered search and the theorem applies to it. -/
theorem C8_search_snippet_first_200_witness :
    mkSummary wSearchDb (wRow 2 2 20 ("hi".toList)) ∈ search wFts wSearchDb noOpts ∧
    ∃ r, r ∈ wSearchDb.emails.rows ∧
      mkSummary wSearchDb (wRow 2 2 20 ("hi".toList)) = mkSummary wSearchDb r ∧
      (r.bodyText = [] → (mkSummary wSearchDb (wRow 2 2 20 ("hi".toList))).snippet = []) ∧
      (r.bodyText.length ≤ 200 →
        (mkSummary wSearchDb (wRow 2 2 20 ("hi".toList))).snippet = r.bodyText) ∧
      (r.bodyText.length > 200 →
        (mkSummary wSearchDb (wRow 2 2 20 ("hi".toList))).snippet
          = r.bodyText.take 200 ++ [ '.', '.', '.' ]) :=
  ⟨by decide,
   C8_search_snippet_first_200 wFts wSearchDb noOpts
     (mkSummary wSearchDb (wRow 2 2 20 ("hi".toList))) (by decide)⟩

/-! Model of: C3: limit handling -/

/-- Tool configuration with `SEARCH_RESULT_LIMIT` set to 2. -/
def wCfg2 : ToolConfig := { searchResultLimit := 2 }

/-- Tool configuration with the stock default limit of 100. -/
def wCfg100 : ToolConfig := { searchResultLimit := 100 }

/-- Request carrying a negative limit parameter. -/
def wNegLimitParams : SearchParams := { noParams with limitReq := some (-1) }

/-- C3 counterexample: with the configured default result count set to
2, a search requesting limit −1 returns 3 results, not the configured
default of 2 — negative limits bypass the tool's default (only an
exact 0 is replaced) and hit the store's hardcoded fallback of 100. -/
theorem C3_counterexample_negative_limit_ignores_config :
    wCfg2.searchResultLimit = 2 ∧
    (searchToolExecute wFts wSearchDb wCfg2 wNegLimitParams).toOption.map List.length
      = some 3 :=
  ⟨rfl, by decide⟩

/-- The store clamp always lands in `[1, 1000]`. -/
theorem storeClampLimit_mem (l : Int) :
    1 ≤ storeClampLimit l ∧ storeClampLimit l ≤ 1000 := by
  unfold storeClampLimit
  dsimp only
  split <;> split <;> omega

/-- C3 amended: an absent or exactly-zero limit yields the configured
default (clamped by the store); a negative limit yields the store's
hardcoded fallback of 100, not the configured default; a search never
returns more than 1000 results; and out-of-range limit values never
produce an error (an execution only fails on malformed dates). -/
theorem C3_amended_limit_clamping :
    (∀ cfg : Int, effectiveLimit cfg none = storeClampLimit cfg ∧
      effectiveLimit cfg (some 0) = storeClampLimit cfg) ∧
    (∀ cfg : Int, 0 < cfg → cfg ≤ 1000 → effectiveLimit cfg none = cfg) ∧
    (∀ cfg n : Int, n < 0 → effectiveLimit cfg (some n) = 100) ∧
    (∀ (fts : Str → Nat → Bool) (db : Db) (o : SearchOpts),
      (search fts db o).length ≤ 1000) ∧
    (∀ (fts : Str → Nat → Bool) (db : Db) (cfg : ToolConfig) (p : SearchParams),
      (∀ x, p.dateFrom = some x → x ≠ .error ()) →
      (∀ x, p.dateTo = some x → x ≠ .error ()) →
      (searchToolExecute fts db cfg p).isOk = true) := by
  refine ⟨?_, ?_, ?_, ?_, ?_⟩
  · intro cfg
    constructor <;> rfl
  · intro cfg h1 h2
    show storeClampLimit (toolLimit cfg none) = cfg
    have : toolLimit cfg none = cfg := by
      unfold toolLimit; simp
    rw [this]
    unfold storeClampLimit
    dsimp only
    split <;> split <;> omega
  · intro cfg n hn
    show storeClampLimit (toolLimit cfg (some n)) = 100
    have : toolLimit cfg (some n) = n := by
      unfold toolLimit
      simp only [Option.getD_some]
      rw [if_neg (by omega)]
    rw [this]
    unfold storeClampLimit
    dsimp only
    have h1 : n ≤ 0 := by omega
    simp only [if_pos h1]
    norm_num
  · intro fts db o
    unfold search
    rw [List.length_map]
    have h1 := List.length_take_le (storeClampLimit o.limit).toNat
      ((db.emails.rows.filter (matchesRow fts db o)).insertionSort rowDateGe)
    have h2 : (storeClampLimit o.limit).toNat ≤ 1000 :=
      Int.toNat_le.mpr (storeClampLimit_mem o.limit).2
    omega
  · intro fts db cfg p hFrom hTo
    unfold searchToolExecute
    cases hdf : p.dateFrom with
    | none =>
      cases hdt : p.dateTo with
      | none => rfl
      | some x =>
        cases x with
        | ok d => rfl
        | error e => cases e; exact absurd rfl (hTo _ hdt)
    | some x =>
      cases x with
      | ok d =>
        cases hdt : p.dateTo with
        | none => rfl
        | some y =>
          cases y with
          | ok d2 => rfl
          | error e => cases e; exact absurd rfl (hTo _ hdt)
      | error e => cases e; exact absurd rfl (hFrom _ hdf)

/-- C3 amended witness: the amended theorem applied at concrete inputs —
a negative requested limit lands on 100 with the configured default 2,
and a parameter-free execution on the witness database succeeds. -/
theorem C3_amended_limit_clamping_witness :
    effectiveLimit 2 (some (-1)) = 100 ∧
    (searchToolExecute wFts wSearchDb wCfg2 noParams).isOk = true :=
  ⟨C3_amended_limit_clamping.2.2.1 2 (-1) (by decide),
   C3_amended_limit_clamping.2.2.2.2 wFts wSearchDb wCfg2 noParams
     (fun x h => by cases h) (fun x h => by cases h)⟩

/-! Model of: C9: unknown account name in search -/

/-- Request filtering on the unknown account name `ghost`. -/
def wGhostParams : SearchParams :=
  { noParams with accountName := some ("ghost".toList) }

/-- C9 counterexample: searching with the unknown account name `ghost`
does not report a not-found failure — the store lookup is a typed
error, but the tool swallows it and returns the unfiltered result set
(all three cached emails). -/
theorem C9_counterexample_unknown_account_not_reported :
    getAccountID wSearchDb ("ghost".toList) = .error () ∧
    (searchToolExecute wFts wSearchDb wCfg100 wGhostParams).toOption.map List.length
      = some 3 :=
  ⟨by decide, by decide⟩

/-- C9 amended: for an account name with no account row,
`Store.GetAccountID` does return a typed not-found failure, but
`SearchEmailsTool.Execute` silently drops the failed lookup and behaves
exactly as if no account filter had been supplied. -/
theorem C9_amended_unknown_account_filter_dropped
    (db : Db) (name : Str)
    (hnf : db.accounts.rows.find? (fun a => decide (a.name = name)) = none) :
    getAccountID db name = .error () ∧
    ∀ (fts : Str → Nat → Bool) (cfg : ToolConfig) (p : SearchParams),
      p.accountName = some name →
      searchToolExecute fts db cfg p
        = searchToolExecute fts db cfg { p with accountName := none } := by
  have hget : getAccountID db name = .error () := by
    unfold getAccountID
    rw [hnf]
  refine ⟨hget, ?_⟩
  intro fts cfg p hp
  by_cases hnil : name = []
  · simp [searchToolExecute, hp, hget, hnil]
  · simp [searchToolExecute, hp, hget, hnil]

/-- C9 amended witness: on the witness database, looking up `ghost`
fails with the typed error and the tool's result equals the unfiltered
one. -/
theorem C9_amended_unknown_account_filter_dropped_witness :
    getAccountID wSearchDb ("ghost".toList) = .error () ∧
    searchToolExecute wFts wSearchDb wCfg100 wGhostParams
      = searchToolExecute wFts wSearchDb wCfg100 noParams :=
  ⟨(C9_amended_unknown_account_filter_dropped wSearchDb ("ghost".toList) (by decide)).1,
   (C9_amended_unknown_account_filter_dropped wSearchDb ("ghost".toList) (by decide)).2
     wFts wCfg100 wGhostParams rfl⟩

/-! Model of: Message normalizer `IMAPClient.parseMessage` (C5, C6) -/

/-- An envelope address (`imap.Address`): the display name and the
rendered mailbox address string produced by `addr.Address()`. -/
structure ImapAddress where
  personalName : Str
  address : Str
deriving DecidableEq

/-- The message envelope fields `parseMessage` reads. -/
structure EnvelopeM where
  messageId : Str
  subject : Str
  date : Nat
  fromAddrs : List ImapAddress
  toAddrs : List ImapAddress
  ccAddrs : List ImapAddress
  bccAddrs : List ImapAddress
deriving DecidableEq

/-- One entry of the `msg.Body` map.  The map is keyed by
`*imap.BodySectionName` — a pointer — so Go compares keys by pointer
identity; `addr` models that identity.  `emptyName` records whether the
pointed-to section name value is the zero `BodySectionName` (the code
never consults it, precisely because lookups go by pointer).
`content` is what `readLiteralToBytes` delivers for the entry. -/
structure BodySection where
  addr : Nat
  emptyName : Bool
  content : Str
deriving DecidableEq

/-- A raw fetched message (`imap.Message`) as `parseMessage` consumes
it.  `bodyNil` models `msg.Body == nil`; `nilKey` the entry under the
nil key if present; `sections` the remaining entries in Go's map
iteration order. -/
structure RawMsg where
  uid : Nat
  envelope : EnvelopeM
  flags : List Str
  bodyNil : Bool
  nilKey : Option Str
  sections : List BodySection
deriving DecidableEq

/-- A pointer address distinct from every key of the map — the address
of the freshly allocated `&imap.BodySectionName{}` in method 2. -/
def freshAddr (ss : List BodySection) : Nat :=
  (ss.map (fun s => s.addr)).foldr max 0 + 1

/-- Go map lookup on the pointer-keyed body map: pointer identity. -/
def lookupAddr (ss : List BodySection) (a : Nat) : Option Str :=
  (ss.find? (fun s => decide (s.addr = a))).map (fun s => s.content)

/-- Method 3 of the body resolution: iterate the available sections and
keep the first non-empty content (the loop leaves the last — empty —
read in place when every section is empty, which is the empty string
as well). -/
def firstNonEmptySection (ss : List BodySection) : Str :=
  match ss.find? (fun s => decide (s.content ≠ [])) with
  | some s => s.content
  | none => []

/-- The body-resolution block of `parseMessage`: method 1 takes the nil
key whenever it is present (regardless of content); method 2 looks up a
freshly allocated empty `BodySectionName` pointer; method 3 iterates all
sections. -/
def resolveBody (m : RawMsg) : Str :=
  if m.bodyNil then []
  else
    match m.nilKey with
    | some lit => lit
    | none =>
      match lookupAddr m.sections (freshAddr m.sections) with
      | some lit => lit
      | none => firstNonEmptySection m.sections

/-- Output of the external `enmime.ReadEnvelope` MIME decoder. -/
structure MimeParts where
  text : Str
  html : Str
deriving DecidableEq

/-- The canonical record `parseMessage` produces (account, folder and
cache-timestamp fields are attached by the caller). -/
structure ParsedEmail where
  uid : Nat
  messageId : Str
  subject : Str
  senderName : Str
  senderEmail : Str
  recipients : List Str
  date : Nat
  bodyText : Str
  bodyHtml : Str
  flags : List Str
deriving DecidableEq

/-- `IMAPClient.parseMessage`, with the MIME decoder as an oracle
(`none` models a decode failure).  The function is total: every raw
message yields a record. -/
def parseMessage (mime : Str → Option MimeParts) (m : RawMsg) : ParsedEmail :=
  let base : ParsedEmail :=
    { uid := m.uid
      messageId := m.envelope.messageId
      subject := m.envelope.subject
      senderName := match m.envelope.fromAddrs with | [] => [] | a :: _ => a.personalName
      senderEmail := match m.envelope.fromAddrs with | [] => [] | a :: _ => a.address
      recipients :=
        (m.envelope.toAddrs ++ m.envelope.ccAddrs ++ m.envelope.bccAddrs).map
          (fun a => a.address)
      date := m.envelope.date
      bodyText := []
      bodyHtml := []
      flags := m.flags }
  let bodyBytes := resolveBody m
  if bodyBytes = [] then base
  else
    match mime bodyBytes with
    | some parts => { base with bodyText := parts.text, bodyHtml := parts.html }
    | none => { base with bodyText := bodyBytes }

theorem addr_le_foldr_max {ss : List BodySection} {s : BodySection} (h : s ∈ ss) :
    s.addr ≤ (ss.map (fun x => x.addr)).foldr max 0 := by
  induction ss with
  | nil => cases h
  | cons a t ih =>
    rcases List.mem_cons.mp h with rfl | h'
    · exact Nat.le_max_left _ _
    · exact Nat.le_trans (ih h') (Nat.le_max_right _ _)

theorem lookupAddr_freshAddr (ss : List BodySection) :
    lookupAddr ss (freshAddr ss) = none := by
  unfold lookupAddr
  rw [List.find?_eq_none.mpr]
  · rfl
  · intro s hs
    simp only [decide_eq_true_eq]
    intro hax
    have := addr_le_foldr_max hs
    rw [hax] at this
    unfold freshAddr at this
    omega

/-- Body resolution exactly as claim C5 states it (stated from the
claim's wording, for comparison with the code's `resolveBody`): try the
nil-keyed section, then a section whose name value is the empty section
address, then the first non-empty section, stopping at the first
non-empty result. -/
def claimResolveBody (m : RawMsg) : Str :=
  let a := match m.nilKey with | some lit => lit | none => []
  let b :=
    match m.sections.find? (fun s => s.emptyName) with
    | some s => s.content
    | none => []
  if a ≠ [] then a else if b ≠ [] then b else firstNonEmptySection m.sections

/-- Concrete message for C5: the nil-keyed section is present but
empty, and another section holds `hello`. -/
def wMsgNilEmpty : RawMsg :=
  { uid := 9
    envelope := { messageId := [], subject := [ 's' ], date := 3
                  fromAddrs := [], toAddrs := [], ccAddrs := [], bccAddrs := [] }
    flags := []
    bodyNil := false
    nilKey := some []
    sections := [{ addr := 5, emptyName := false, content := "hello".toList }] }

/-- C5 counterexample: on a message whose nil-keyed section is present
but empty while another section is non-empty, the claimed resolution
order yields `hello` but the code resolves the empty nil-keyed content
and never falls through — the code stops at the first PRESENT section
for method 1, not at the first non-empty result. -/
theorem C5_counterexample_present_but_empty_nil_section :
    resolveBody wMsgNilEmpty = [] ∧
    claimResolveBody wMsgNilEmpty = "hello".toList ∧
    resolveBody wMsgNilEmpty ≠ claimResolveBody wMsgNilEmpty :=
  ⟨by decide, by decide, by decide⟩

/-- C5 amended: the resolution tries, in order, (a) the nil-keyed
section, used whenever PRESENT regardless of emptiness, then (b) a
lookup of a freshly allocated empty section address, which can never
succeed because the body map is keyed by pointer identity, then (c) the
first non-empty section in iteration order.  Consequently, with a
non-nil body map the resolved bytes are the nil-keyed content when that
key is present, and the first non-empty section content otherwise. -/
theorem C5_amended_resolution_order (m : RawMsg) :
    (m.bodyNil = true → resolveBody m = []) ∧
    (∀ s, m.bodyNil = false → m.nilKey = some s → resolveBody m = s) ∧
    (m.bodyNil = false → m.nilKey = none →
      resolveBody m = firstNonEmptySection m.sections) ∧
    lookupAddr m.sections (freshAddr m.sections) = none := by
  refine ⟨?_, ?_, ?_, lookupAddr_freshAddr m.sections⟩
  · intro hb
    unfold resolveBody
    rw [if_pos hb]
  · intro s hb hk
    unfold resolveBody
    rw [if_neg (by rw [hb]; exact Bool.false_ne_true), hk]
  · intro hb hk
    unfold resolveBody
    rw [if_neg (by rw [hb]; exact Bool.false_ne_true), hk, lookupAddr_freshAddr]

/-- C5 amended witness: the amended theorem applied to the concrete
message with a present-but-empty nil-keyed section. -/
theorem C5_amended_resolution_order_witness :
    wMsgNilEmpty.bodyNil = false ∧ wMsgNilEmpty.nilKey = some [] ∧
    resolveBody wMsgNilEmpty = [] ∧
    lookupAddr wMsgNilEmpty.sections (freshAddr wMsgNilEmpty.sections) = none :=
  ⟨rfl, rfl,
   (C5_amended_resolution_order wMsgNilEmpty).2.1 [] rfl rfl,
   (C5_amended_resolution_order wMsgNilEmpty).2.2.2⟩

/-- C6: normalization is total — every raw message yields a record with
the envelope's subject, date, message id and sender fields; when MIME
decoding of non-empty resolved bytes fails the raw bytes become the
plain-text body verbatim; and when no content bytes resolve the record
still carries the metadata, with both bodies empty. -/
theorem C6_parse_message_total_with_fallbacks
    (mime : Str → Option MimeParts) (m : RawMsg) :
    (parseMessage mime m).subject = m.envelope.subject ∧
    (parseMessage mime m).date = m.envelope.date ∧
    (parseMessage mime m).messageId = m.envelope.messageId ∧
    (parseMessage mime m).senderEmail
      = (match m.envelope.fromAddrs with | [] => [] | a :: _ => a.address) ∧
    (parseMessage mime m).senderName
      = (match m.envelope.fromAddrs with | [] => [] | a :: _ => a.personalName) ∧
    (resolveBody m ≠ [] → mime (resolveBody m) = none →
      (parseMessage mime m).bodyText = resolveBody m ∧
      (parseMessage mime m).bodyHtml = []) ∧
    (resolveBody m = [] →
      (parseMessage mime m).bodyText = [] ∧ (parseMessage mime m).bodyHtml = []) := by
  unfold parseMessage
  dsimp only
  by_cases hb : resolveBody m = []
  · rw [if_pos hb]
    exact ⟨rfl, rfl, rfl, rfl, rfl, fun hne _ => absurd hb hne, fun _ => ⟨rfl, rfl⟩⟩
  · rw [if_neg hb]
    cases hm : mime (resolveBody m) with
    | none =>
      exact ⟨rfl, rfl, rfl, rfl, rfl, fun _ _ => ⟨rfl, rfl⟩, fun h => absurd h hb⟩
    | some parts =>
      refine ⟨rfl, rfl, rfl, rfl, rfl, ?_, fun h => absurd h hb⟩
      intro _ hm2
      simp at hm2

/-- MIME oracle that always fails, for the C6 witness. -/
def wMimeFail : Str → Option MimeParts := fun _ => none

/-- Concrete message whose body map holds `raw` under the nil key. -/
def wMsgRaw : RawMsg :=
  { wMsgNilEmpty with nilKey := some ("raw".toList), sections := [] }

/-- C6 witness: with a failing MIME decoder and a message resolving to
the bytes `raw`, the record stores the raw bytes verbatim as its
plain-text body and keeps the envelope subject. -/
theorem C6_parse_message_total_with_fallbacks_witness :
    resolveBody wMsgRaw ≠ [] ∧ wMimeFail (resolveBody wMsgRaw) = none ∧
    (parseMessage wMimeFail wMsgRaw).bodyText = resolveBody wMsgRaw ∧
    (parseMessage wMimeFail wMsgRaw).subject = wMsgRaw.envelope.subject :=
  ⟨by decide, rfl,
   ((C6_parse_message_total_with_fallbacks wMimeFail wMsgRaw).2.2.2.2.2.1
     (by decide) rfl).1,
   (C6_parse_message_total_with_fallbacks wMimeFail wMsgRaw).1⟩

/-! Model of: Repair-on-read: `GetEmailTool.Execute` (C2) -/

/-- Back-conversion of a stored row into the upsert input that
`GetEmailTool.Execute` passes to `Store.UpsertEmail` (the `cachedEmail`
value is a full `types.Email`). -/
def rowToIn (r : EmailRow) : EmailIn :=
  { accountId := r.accountId
    folderId := r.folderId
    uid := r.uid
    messageId := r.messageId
    subject := r.subject
    senderName := r.senderName
    senderEmail := r.senderEmail
    recipients := r.recipients
    date := r.date
    bodyText := r.bodyText
    bodyHtml := r.bodyHtml
    headers := r.headers
    flags := r.flags }

/-- `Store.GetEmail`: the row by surrogate id, denormalized through
inner joins on `accounts` and `folders`; a missing row (or a failed
join) is the typed `email not found` failure, not a null result. -/
def getEmailStore (db : Db) (emailId : Nat) : Except Unit EmailRow :=
  match db.emails.rows.find? (fun r => decide (r.id = emailId)) with
  | some r => if joinOk db r then .ok r else .error ()
  | none => .error ()

/-- The fields of a re-fetched message that the repair path copies into
the cached record (`emails[0].BodyText/BodyHTML/Headers`). -/
structure FetchedBody where
  bodyText : Str
  bodyHtml : Str
  headers : List (Str × Str)
deriving DecidableEq

/-- Oracle outcomes of the repair path's external steps:
`config.GetAccountByName` (`none` models the account-not-found error),
the single `FetchEmails(folder, uid, uid)` call (`none` models a fetch
error), and whether the `Store.UpsertEmail` cache update succeeds.
`email.NewIMAPClient` cannot fail in the source, so it has no failure
oracle. -/
structure RepairWorld where
  accountCfg : Option AccountConfig
  fetchResult : Option (List FetchedBody)
  upsertOk : Bool
deriving DecidableEq

/-- `GetEmailTool.Execute` for a numeric id: load the cached record;
when both bodies are empty, attempt the best-effort repair, swallowing
every failure; return the (possibly updated) record, the resulting
database and the number of re-fetch attempts made. -/
def getEmailExecute (w : RepairWorld) (db : Db) (emailId : Nat) :
    Except Unit (EmailRow × Db × Nat) :=
  match getEmailStore db emailId with
  | .error e => .error e
  | .ok cached =>
    if cached.bodyText = [] ∧ cached.bodyHtml = [] then
      match w.accountCfg with
      | none => .ok (cached, db, 0)
      | some _ =>
        match w.fetchResult with
        | none => .ok (cached, db, 1)
        | some [] => .ok (cached, db, 1)
        | some (f :: _) =>
          let updated :=
            { cached with bodyText := f.bodyText, bodyHtml := f.bodyHtml
                          headers := f.headers }
          if w.upsertOk then
            .ok (updated, { db with emails := upsertEmail db.emails (rowToIn updated) }, 1)
          else
            .ok (updated, db, 1)
    else .ok (cached, db, 0)

/-- Repair world for the C2 counterexample: account found, the
re-fetch delivers a body `B`, but the cache update fails. -/
def wRepairUpsertFail : RepairWorld :=
  { accountCfg := some wCfgP1
    fetchResult := some [{ bodyText := "B".toList, bodyHtml := [], headers := [] }]
    upsertOk := false }

/-- C2 counterexample: the cached record with id 1 is bodyless, the
re-fetch succeeds with body `B` and the cache update fails — yet the
caller receives the record WITH body `B`, not the original bodyless
record unchanged, contradicting the claim's cache-update-failure
case. -/
theorem C2_counterexample_upsert_failure_returns_updated_record :
    (getEmailStore wSearchDb 1).toOption.map (fun r => r.bodyText) = some [] ∧
    (getEmailExecute wRepairUpsertFail wSearchDb 1).toOption.map (fun o => o.1.bodyText)
      = some ("B".toList) ∧
    some ("B".toList) ≠ (some ([] : Str)) :=
  ⟨by decide, by decide, by decide⟩

/-- C2 amended: for a cached record with both bodies empty the repair
path never raises an error and makes at most one re-fetch attempt; on
account-lookup failure, fetch failure or an empty fetch result the
original bodyless record and an unchanged database are returned; on a
cache-update failure the re-fetched body is still returned to the
caller while only the database stays unchanged. -/
theorem C2_amended_repair_never_errors
    (w : RepairWorld) (db : Db) (emailId : Nat) (cached : EmailRow)
    (hfound : getEmailStore db emailId = .ok cached)
    (hempty : cached.bodyText = [] ∧ cached.bodyHtml = []) :
    (getEmailExecute w db emailId).isOk = true ∧
    (∀ r dbOut n, getEmailExecute w db emailId = .ok (r, dbOut, n) → n ≤ 1) ∧
    (w.accountCfg = none → getEmailExecute w db emailId = .ok (cached, db, 0)) ∧
    (∀ cfg, w.accountCfg = some cfg → w.fetchResult = none →
      getEmailExecute w db emailId = .ok (cached, db, 1)) ∧
    (∀ cfg, w.accountCfg = some cfg → w.fetchResult = some [] →
      getEmailExecute w db emailId = .ok (cached, db, 1)) ∧
    (∀ cfg f rest, w.accountCfg = some cfg → w.fetchResult = some (f :: rest) →
      w.upsertOk = false →
      getEmailExecute w db emailId
        = .ok ({ cached with bodyText := f.bodyText, bodyHtml := f.bodyHtml
                             headers := f.headers }, db, 1)) := by
  have hbase : getEmailExecute w db emailId =
      (match w.accountCfg with
       | none => .ok (cached, db, 0)
       | some _ =>
         match w.fetchResult with
         | none => .ok (cached, db, 1)
         | some [] => .ok (cached, db, 1)
         | some (f :: _) =>
           let updated :=
             { cached with bodyText := f.bodyText, bodyHtml := f.bodyHtml
                           headers := f.headers }
           if w.upsertOk then
             .ok (updated, { db with emails := upsertEmail db.emails (rowToIn updated) }, 1)
           else
             .ok (updated, db, 1)) := by
    unfold getEmailExecute
    rw [hfound]
    dsimp only
    rw [if_pos hempty]
  rw [hbase]
  cases hA : w.accountCfg with
  | none =>
    refine ⟨rfl, ?_, fun _ => rfl, ?_, ?_, ?_⟩
    · intro r dbOut n h
      simp only [Except.ok.injEq, Prod.mk.injEq] at h
      omega
    · intro cfg hc
      cases hc
    · intro cfg hc
      cases hc
    · intro cfg f rest hc
      cases hc
  | some cfg0 =>
    cases hF : w.fetchResult with
    | none =>
      refine ⟨rfl, ?_, ?_, fun cfg _ _ => rfl, ?_, ?_⟩
      · intro r dbOut n h
        simp only [Except.ok.injEq, Prod.mk.injEq] at h
        omega
      · intro hc
        cases hc
      · intro cfg _ hf
        cases hf
      · intro cfg f rest _ hf
        cases hf
    | some l =>
      cases l with
      | nil =>
        refine ⟨rfl, ?_, ?_, ?_, fun cfg _ _ => rfl, ?_⟩
        · intro r dbOut n h
          simp only [Except.ok.injEq, Prod.mk.injEq] at h
          omega
        · intro hc
          cases hc
        · intro cfg _ hf
          cases hf
        · intro cfg f rest _ hf
          simp at hf
      | cons f0 rest0 =>
        refine ⟨?_, ?_, ?_, ?_, ?_, ?_⟩
        · cases hU : w.upsertOk <;> rfl
        · intro r dbOut n h
          dsimp only at h
          cases hU : w.upsertOk <;> rw [hU] at h <;>
            simp only [if_true, if_false, Bool.false_eq_true, Except.ok.injEq,
              Prod.mk.injEq] at h <;> omega
        · intro hc
          cases hc
        · intro cfg _ hf
          cases hf
        · intro cfg _ hf
          simp at hf
        · intro cfg f rest _ hf hU
          simp only [Option.some.injEq, List.cons.injEq] at hf
          obtain ⟨rfl, rfl⟩ := hf
          dsimp only
          rw [hU]
          simp

/-- Repair world in which the account lookup fails. -/
def wRepairNoAccount : RepairWorld :=
  { accountCfg := none, fetchResult := none, upsertOk := true }

/-- C2 amended witness: with a failing account lookup, retrieving the
bodyless record 1 of the witness database returns it unchanged with an
untouched database and zero re-fetch attempts. -/
theorem C2_amended_repair_never_errors_witness :
    getEmailExecute wRepairNoAccount wSearchDb 1 = .ok (wRow 1 1 10 [], wSearchDb, 0) :=
  (C2_amended_repair_never_errors wRepairNoAccount wSearchDb 1 (wRow 1 1 10 [])
    (by decide) (by decide)).2.2.1 rfl

/-! Model of: Synchronization engine `Manager.SyncAccount` / `syncFolder` (C7) -/

/-- Oracle data for syncing one discovered folder:
`statusResult` is the outcome of `IMAP.GetFolderStatus` (`none` models
an error), `folderUpsertOk` whether `Store.UpsertFolder` succeeds,
`fetchResult` the outcome of `IMAP.FetchEmails` (`none` models an
error), and `emailUpsertOk` whether each individual
`Store.UpsertEmail` call succeeds (missing entries model success). -/
structure FolderSync where
  name : Str
  statusResult : Option Nat
  folderUpsertOk : Bool
  fetchResult : Option (List EmailIn)
  emailUpsertOk : List Bool
deriving DecidableEq

/-- The per-message upsert loop of `Manager.syncFolder`: every fetched
message is attempted; a failed upsert is logged and skipped (the table
is left unchanged for that message) and the loop continues.  Returns
the resulting table and the per-message success flags. -/
def attemptUpserts : EmailTable → List EmailIn → List Bool → EmailTable × List Bool
  | t, [], _ => (t, [])
  | t, e :: es, [] =>
    ((attemptUpserts (upsertEmail t e) es []).1,
     true :: (attemptUpserts (upsertEmail t e) es []).2)
  | t, e :: es, ok :: oks =>
    if ok then
      ((attemptUpserts (upsertEmail t e) es oks).1,
       true :: (attemptUpserts (upsertEmail t e) es oks).2)
    else
      ((attemptUpserts t es oks).1, false :: (attemptUpserts t es oks).2)

/-- `Manager.syncFolder`: get the folder status, upsert the folder row,
fetch the recent window, then run the per-message upsert loop.  All
error exits (`none`) happen before the message loop. -/
def syncFolder (t : EmailTable) (fs : FolderSync) : Option (EmailTable × List Bool) :=
  match fs.statusResult with
  | none => none
  | some _ =>
    if fs.folderUpsertOk then
      match fs.fetchResult with
      | none => none
      | some emails => some (attemptUpserts t emails fs.emailUpsertOk)
    else none

/-- `Manager.SyncAccount` with an unspecified folder: sync every
discovered folder in turn; a folder-level failure is logged
(`none` entry in the outcome trace) and the remaining folders are
still attempted. -/
def syncAccount (t : EmailTable) : List FolderSync → EmailTable × List (Option (List Bool))
  | [] => (t, [])
  | fs :: rest =>
    match syncFolder t fs with
    | none =>
      ((syncAccount t rest).1, none :: (syncAccount t rest).2)
    | some tf =>
      ((syncAccount tf.1 rest).1, some tf.2 :: (syncAccount tf.1 rest).2)

/-- The three failure exits of `syncFolder`. -/
def folderFails (fs : FolderSync) : Prop :=
  fs.statusResult = none ∨ fs.folderUpsertOk = false ∨ fs.fetchResult = none

instance (fs : FolderSync) : Decidable (folderFails fs) := by
  unfold folderFails
  infer_instance

theorem syncFolder_none_iff (t : EmailTable) (fs : FolderSync) :
    syncFolder t fs = none ↔ folderFails fs := by
  unfold syncFolder folderFails
  cases hs : fs.statusResult with
  | none => simp
  | some c =>
    by_cases hfo : fs.folderUpsertOk = true
    · cases hfe : fs.fetchResult with
      | none => simp [hfo, hfe]
      | some es => simp [hfo, hfe]
    · simp [hfo]

theorem attemptUpserts_length (es : List EmailIn) :
    ∀ (t : EmailTable) (oks : List Bool),
      (attemptUpserts t es oks).2.length = es.length := by
  induction es with
  | nil => intro t oks; cases oks <;> rfl
  | cons e es ih =>
    intro t oks
    cases oks with
    | nil => simp [attemptUpserts, ih]
    | cons ok oks =>
      by_cases hok : ok = true
      · simp [attemptUpserts, hok, ih]
      · have : ok = false := Bool.not_eq_true ok ▸ hok
        simp [attemptUpserts, this, ih]

theorem syncFolder_some_flags_length (t : EmailTable) (fs : FolderSync)
    (tf : EmailTable × List Bool) (h : syncFolder t fs = some tf)
    (emails : List EmailIn) (hfe : fs.fetchResult = some emails) :
    tf.2.length = emails.length := by
  unfold syncFolder at h
  cases hs : fs.statusResult with
  | none => rw [hs] at h; cases h
  | some c =>
    rw [hs] at h
    by_cases hfo : fs.folderUpsertOk = true
    · rw [if_pos hfo] at h
      rw [hfe] at h
      simp only [Option.some.injEq] at h
      rw [← h]
      exact attemptUpserts_length emails t fs.emailUpsertOk
    · rw [if_neg hfo] at h; cases h

/-- C7: with an unspecified folder every discovered folder gets an
outcome entry — a failing folder is recorded as `none` and the
remaining folders are still attempted — and inside a successfully
reached folder every fetched message gets a per-message upsert attempt
(the flag list covers all fetched messages even when some upserts
fail). -/
theorem C7_sync_folders_and_messages_partial_failure
    (t : EmailTable) (folders : List FolderSync) :
    ((syncAccount t folders).2.length = folders.length) ∧
    (∀ i (h : i < folders.length),
      (folderFails (folders.get ⟨i, h⟩) →
        (syncAccount t folders).2.getD i none = none) ∧
      (∀ emails, (folders.get ⟨i, h⟩).fetchResult = some emails →
        ¬ folderFails (folders.get ⟨i, h⟩) →
        ∃ flags, (syncAccount t folders).2.getD i none = some flags ∧
          flags.length = emails.length)) := by
  induction folders generalizing t with
  | nil =>
    refine ⟨rfl, ?_⟩
    intro i h
    exact absurd h (Nat.not_lt_zero i)
  | cons fs rest ih =>
    cases hsf : syncFolder t fs with
    | none =>
      have hstep : syncAccount t (fs :: rest)
          = ((syncAccount t rest).1, none :: (syncAccount t rest).2) := by
        simp only [syncAccount, hsf]
      refine ⟨?_, ?_⟩
      · rw [hstep]
        simp [(ih t).1]
      · intro i h
        cases i with
        | zero =>
          refine ⟨fun _ => ?_, fun emails hfe hnf => ?_⟩
          · rw [hstep]; rfl
          · exact absurd ((syncFolder_none_iff t fs).mp hsf) hnf
        | succ j =>
          have hj : j < rest.length := Nat.lt_of_succ_lt_succ h
          refine ⟨fun hff => ?_, fun emails hfe hnf => ?_⟩
          · rw [hstep]
            simpa using ((ih t).2 j hj).1 hff
          · rw [hstep]
            simpa using ((ih t).2 j hj).2 emails hfe hnf
    | some tf =>
      have hstep : syncAccount t (fs :: rest)
          = ((syncAccount tf.1 rest).1, some tf.2 :: (syncAccount tf.1 rest).2) := by
        simp only [syncAccount, hsf]
      refine ⟨?_, ?_⟩
      · rw [hstep]
        simp [(ih tf.1).1]
      · intro i h
        cases i with
        | zero =>
          refine ⟨fun hff => ?_, fun emails hfe hnf => ?_⟩
          · exact absurd ((syncFolder_none_iff t fs).mpr hff ▸ hsf) (by simp)
          · refine ⟨tf.2, ?_, ?_⟩
            · rw [hstep]; rfl
            · exact syncFolder_some_flags_length t fs tf hsf emails hfe
        | succ j =>
          have hj : j < rest.length := Nat.lt_of_succ_lt_succ h
          refine ⟨fun hff => ?_, fun emails hfe hnf => ?_⟩
          · rw [hstep]
            simpa using ((ih tf.1).2 j hj).1 hff
          · rw [hstep]
            simpa using ((ih tf.1).2 j hj).2 emails hfe hnf

/-- A folder whose status fetch fails. -/
def wFolderBad : FolderSync :=
  { name := "Bad".toList, statusResult := none, folderUpsertOk := true
    fetchResult := some [], emailUpsertOk := [] }

/-- A folder that syncs, fetching two messages of which the first
upsert fails. -/
def wFolderGood : FolderSync :=
  { name := "INBOX".toList, statusResult := some 2, folderUpsertOk := true
    fetchResult := some [wEmailA, wEmailB], emailUpsertOk := [false, true] }

/-- C7 witness: syncing a failing folder followed by a working one
yields a two-entry trace whose first entry records the failure while
the second folder was still attempted, with one flag per fetched
message. -/
theorem C7_sync_folders_and_messages_partial_failure_witness :
    (syncAccount wEmptyTable [wFolderBad, wFolderGood]).2.length = 2 ∧
    (syncAccount wEmptyTable [wFolderBad, wFolderGood]).2.getD 0 none = none ∧
    ∃ flags,
      (syncAccount wEmptyTable [wFolderBad, wFolderGood]).2.getD 1 none = some flags ∧
      flags.length = 2 :=
  ⟨(C7_sync_folders_and_messages_partial_failure wEmptyTable [wFolderBad, wFolderGood]).1,
   ((C7_sync_folders_and_messages_partial_failure wEmptyTable
       [wFolderBad, wFolderGood]).2 0 (by decide)).1 (Or.inl rfl),
   ((C7_sync_folders_and_messages_partial_failure wEmptyTable
       [wFolderBad, wFolderGood]).2 1 (by decide)).2 [wEmailA, wEmailB] rfl
     (by decide)⟩

end MCPEmail
